import Mathlib

/-!
Verification development for the multi-region QR detection and deduplication
core of the scanner-pwa repository.  The definitions below are a shallow
embedding of:

  * `src/services/MultiQRDetector.ts` — region partitioning, region/scale
    scanning, within-frame deduplication, and the optimized frame queue;
  * `src/components/TrueMultiCodeScanner.tsx` — the five-strategy per-frame
    scan with a session-level dedup set, result delivery and the 500ms
    scan cadence;
  * `src/components/UltraFastMultiScanner.tsx` — the set-based code
    aggregation with the 16ms batched-update throttle, the auto-stop check
    and the processing flag of the frame loop.

Pixel coordinates and region dimensions are rationals (the TypeScript code
divides possibly-odd integers by 2 and 4 and passes the results straight to
typed-array and `ImageData` constructors), times are integer milliseconds
(`Date.now()`) or rational milliseconds (`performance.now()`), and machine
behaviour of the involved browser primitives (typed-array length validation,
`ImageData` length/shape validation, `Math.round`, `Math.floor`) is modelled
explicitly.  The external jsQR decode primitive is an oracle parameter that
may return a hit, return nothing, or throw.
-/

namespace Scanner

/-- Errors thrown by the modelled browser primitives or by the decode
primitive.  The TypeScript code only ever catches them generically. -/
inductive JsError
  | rangeError
  | invalidState
  | indexSize
  | decodeError
deriving DecidableEq, Repr

/-- Decidable equality for `Except`, needed to evaluate the concrete
scenarios below. -/
def exceptDecEq {ε α : Type} [DecidableEq ε] [DecidableEq α] :
    DecidableEq (Except ε α)
  | .ok a, .ok b =>
      if h : a = b then .isTrue (h ▸ rfl)
      else .isFalse (fun he => h (Except.ok.inj he))
  | .ok _, .error _ => .isFalse (fun he => Except.noConfusion he)
  | .error _, .ok _ => .isFalse (fun he => Except.noConfusion he)
  | .error e, .error f =>
      if h : e = f then .isTrue (h ▸ rfl)
      else .isFalse (fun he => h (Except.error.inj he))

instance {ε α : Type} [DecidableEq ε] [DecidableEq α] :
    DecidableEq (Except ε α) := exceptDecEq

/-- JavaScript `Math.round`: round half up (toward positive infinity). -/
def jsRound (q : ℚ) : ℤ := ⌊q + 1 / 2⌋

/-- WebIDL `unsigned long` conversion (ECMAScript ToUint32) for the
nonnegative rational arguments arising here: truncate, then wrap mod 2^32. -/
def toUint32 (q : ℚ) : ℕ := (⌊q⌋).toNat % 2 ^ 32

/-- A pixel buffer as handed to the detector: `width`, `height` and the RGBA
byte sequence, modelled as a total function from byte index to byte value
(a read below `byteLength` returns the stored byte, anything else reads as
the JavaScript `undefined`, which every write path below stores as 0). -/
structure ImageData where
  width : ℕ
  height : ℕ
  data : ℕ → ℕ

/-- Length in bytes of an `ImageData`'s RGBA buffer. -/
def byteLength (img : ImageData) : ℕ := img.width * img.height * 4

/-- Reading `img.data[idx]` at a possibly fractional index, as JavaScript
does on a typed array: a non-integral, negative or out-of-range index reads
`undefined`, which the subsequent `Uint8ClampedArray` store turns into 0. -/
def readByte (img : ImageData) (idx : ℚ) : ℕ :=
  if idx.den = 1 ∧ 0 ≤ idx.num ∧ idx.num.toNat < byteLength img then
    img.data idx.num.toNat
  else 0

/-- `new Uint8ClampedArray(len)`: ECMAScript ToIndex validation — a
fractional or negative length throws a RangeError; otherwise the array of
that many zero bytes is created and we record its length. -/
def mkUint8ClampedArray (len : ℚ) : Except JsError ℕ :=
  if len.den = 1 ∧ 0 ≤ len.num then .ok len.num.toNat else .error .rangeError

/-- `new ImageData(data, sw, sh)` per the HTML standard: `sw`/`sh` go
through ToUint32, then the byte length must be a nonzero multiple of 4,
the pixel count must be a positive multiple of `sw`, and the derived height
must equal `sh`; otherwise the constructor throws. Returns the accepted
width and height. -/
def mkImageData (dataLen : ℕ) (swq shq : ℚ) : Except JsError (ℕ × ℕ) :=
  if dataLen = 0 ∨ dataLen % 4 ≠ 0 then .error .invalidState
  else if toUint32 swq = 0 ∨ (dataLen / 4) % toUint32 swq ≠ 0 then .error .indexSize
  else if (dataLen / 4) / toUint32 swq ≠ toUint32 shq then .error .indexSize
  else .ok (toUint32 swq, toUint32 shq)

/-- A point of a jsQR corner location. -/
structure Point where
  x : ℚ
  y : ℚ
deriving DecidableEq, Repr

/-- The `location` object of a jsQR result. -/
structure QRLocation where
  topLeftCorner : Point
  topRightCorner : Point
  bottomLeftCorner : Point
  bottomRightCorner : Point
deriving DecidableEq, Repr

/-- A raw jsQR decode result: decoded text, the (untyped, possibly absent —
modelled as 0) confidence, and corner geometry. -/
structure QRResult where
  data : String
  confidence : ℚ
  location : QRLocation
deriving DecidableEq, Repr

/-- JavaScript `result.confidence || 1.0`: an absent or zero confidence
(both falsy) is replaced by 1.0. -/
def jsOr (c : ℚ) : ℚ := if c = 0 then 1 else c

/-- Bounding box of a detected code in source-frame coordinates. -/
structure BoundingBox where
  x : ℚ
  y : ℚ
  width : ℚ
  height : ℚ
deriving DecidableEq, Repr

/-- Corner points of a detected code in source-frame coordinates. -/
structure Corners where
  topLeft : Point
  topRight : Point
  bottomLeft : Point
  bottomRight : Point
deriving DecidableEq, Repr

/-- `DetectedCode` from `MultiQRDetector.ts`. -/
structure DetectedCode where
  data : String
  confidence : ℚ
  boundingBox : BoundingBox
  corners : Corners
deriving DecidableEq, Repr

namespace MultiQRDetector

/-- A candidate region of the frame, exactly as built in `scanRegions`:
fields are rationals because the source divides pixel dimensions by 2 and 4
without flooring. -/
structure Region where
  x : ℚ
  y : ℚ
  w : ℚ
  h : ℚ
deriving DecidableEq, Repr

/-- The five regions scanned by `scanRegions`: the four quadrants and the
centered half-size window, in source order. -/
def regions (width height : ℕ) : List Region :=
  [⟨0, 0, (width : ℚ) / 2, (height : ℚ) / 2⟩,
   ⟨(width : ℚ) / 2, 0, (width : ℚ) / 2, (height : ℚ) / 2⟩,
   ⟨0, (height : ℚ) / 2, (width : ℚ) / 2, (height : ℚ) / 2⟩,
   ⟨(width : ℚ) / 2, (height : ℚ) / 2, (width : ℚ) / 2, (height : ℚ) / 2⟩,
   ⟨(width : ℚ) / 4, (height : ℚ) / 4, (width : ℚ) / 2, (height : ℚ) / 2⟩]

/-- `extractRegion`: allocate `new Uint8ClampedArray(region.w * region.h * 4)`
(ToIndex validation), copy the crop, and construct the region `ImageData`
(with the HTML-standard validation, which throws on the inconsistent
lengths produced by fractional region dimensions).  The copy loop writes
destination byte `(y*w + x)*4 + c` from source byte
`((region.y + y)*width + (region.x + x))*4 + c`; the destination indices are
inverted through channel `i % 4`, pixel `i / 4`, row and column — a valid
inversion whenever the region width is integral, which the `ImageData`
validation enforces for every buffer this function actually returns. -/
def extractRegion (img : ImageData) (r : Region) : Except JsError ImageData := do
  let len ← mkUint8ClampedArray (r.w * r.h * 4)
  let w := toUint32 r.w
  let newData : ℕ → ℕ := fun i =>
    if i < len ∧ w ≠ 0 then
      let c := i % 4
      let p := i / 4
      readByte img (((r.y + (p / w : ℕ)) * img.width + (r.x + (p % w : ℕ))) * 4 + (c : ℕ))
    else 0
  let dims ← mkImageData len r.w r.h
  .ok ⟨dims.1, dims.2, newData⟩

/-- The scale factors of `scanMultipleScales`: 0.5, 0.75, 1.0, 1.25, 1.5. -/
def scales : List ℚ := [1 / 2, 3 / 4, 1, 5 / 4, 3 / 2]

/-- `scaleImageData`: nearest-neighbour resample to
`floor(width*scale) × floor(height*scale)`; the concluding
`new ImageData(...)` throws exactly when the scaled frame is empty. -/
def scaleImageData (img : ImageData) (scale : ℚ) : Except JsError ImageData := do
  let newWidth := (⌊(img.width : ℚ) * scale⌋).toNat
  let newHeight := (⌊(img.height : ℚ) * scale⌋).toNat
  let newData : ℕ → ℕ := fun i =>
    if i < newWidth * newHeight * 4 then
      let c := i % 4
      let p := i / 4
      let srcX := (⌊((p % newWidth : ℕ) : ℚ) / scale⌋).toNat
      let srcY := (⌊((p / newWidth : ℕ) : ℚ) / scale⌋).toNat
      readByte img (((srcY * img.width + srcX) * 4 + c : ℕ) : ℚ)
    else 0
  let dims ← mkImageData (newWidth * newHeight * 4) (newWidth : ℚ) (newHeight : ℚ)
  .ok ⟨dims.1, dims.2, newData⟩

/-- `createDetectedCode`: translate a jsQR result into a `DetectedCode`,
scaling corner coordinates and applying the region offset. -/
def createDetectedCode (result : QRResult) (offsetX offsetY scale : ℚ) : DetectedCode :=
  let corners := result.location
  { data := result.data
    confidence := jsOr result.confidence
    boundingBox :=
      { x := corners.topLeftCorner.x * scale + offsetX
        y := corners.topLeftCorner.y * scale + offsetY
        width := (corners.bottomRightCorner.x - corners.topLeftCorner.x) * scale
        height := (corners.bottomRightCorner.y - corners.topLeftCorner.y) * scale }
    corners :=
      { topLeft := ⟨corners.topLeftCorner.x * scale + offsetX,
                    corners.topLeftCorner.y * scale + offsetY⟩
        topRight := ⟨corners.topRightCorner.x * scale + offsetX,
                     corners.topRightCorner.y * scale + offsetY⟩
        bottomLeft := ⟨corners.bottomLeftCorner.x * scale + offsetX,
                       corners.bottomLeftCorner.y * scale + offsetY⟩
        bottomRight := ⟨corners.bottomRightCorner.x * scale + offsetX,
                        corners.bottomRightCorner.y * scale + offsetY⟩ } }

/-- The position key built in `removeDuplicateCodes`:
`round(x/10)` and `round(y/10)` joined into a string key; the pair of the
two integers carries exactly the same information. -/
def positionKey (code : DetectedCode) : ℤ × ℤ :=
  (jsRound (code.boundingBox.x / 10), jsRound (code.boundingBox.y / 10))

/-- Accumulator of the `removeDuplicateCodes` loop: the kept codes and the
`seenData` / `seenPositions` sets (insertion-ordered lists with membership
used as the set query). -/
structure DedupState where
  uniqueCodes : List DetectedCode
  seenData : List String
  seenPositions : List (ℤ × ℤ)
deriving DecidableEq, Repr

/-- One iteration of the `removeDuplicateCodes` loop: a code is kept only
if neither its decoded text nor its rounded position key has been seen on a
previously kept code. -/
def dedupStep (acc : DedupState) (code : DetectedCode) : DedupState :=
  if code.data ∉ acc.seenData ∧ positionKey code ∉ acc.seenPositions then
    ⟨acc.uniqueCodes ++ [code], acc.seenData ++ [code.data],
     acc.seenPositions ++ [positionKey code]⟩
  else acc

/-- `removeDuplicateCodes`: fold the dedup step over the raw hit list. -/
def removeDuplicateCodes (codes : List DetectedCode) : List DetectedCode :=
  (codes.foldl dedupStep ⟨[], [], []⟩).uniqueCodes

/-- Modelled from the spec's within-frame dedup wording, for comparison
with `removeDuplicateCodes`: keep exactly the first occurrence of each
distinct decoded text, in scan order, ignoring positions. -/
def keepFirstTextStep (acc : List DetectedCode × List String)
    (code : DetectedCode) : List DetectedCode × List String :=
  if code.data ∈ acc.2 then acc else (acc.1 ++ [code], acc.2 ++ [code.data])

/-- Modelled from the spec's within-frame dedup wording: the
first-occurrence-per-text filter the spec describes. -/
def dedupByFirstText (codes : List DetectedCode) : List DetectedCode :=
  (codes.foldl keepFirstTextStep ([], [])).1

/-- The body of one `scanRegions` loop iteration before its try/catch:
extract the region crop and run the decode primitive on it. -/
def regionScan (jsQR : ImageData → Except JsError (Option QRResult))
    (img : ImageData) (r : Region) : Except JsError (Option QRResult) := do
  let regionData ← extractRegion img r
  jsQR regionData

/-- One `scanRegions` loop iteration: a successful decode appends the
offset-adjusted code; a miss, or a caught throw (the `catch` logs and
continues), leaves the accumulator unchanged. -/
def scanRegionsStep (jsQR : ImageData → Except JsError (Option QRResult))
    (img : ImageData) (codes : List DetectedCode) (region : Region) :
    List DetectedCode :=
  match regionScan jsQR img region with
  | .ok (some result) => codes ++ [createDetectedCode result region.x region.y 1]
  | _ => codes

/-- `scanRegions`: scan each candidate region; a region whose extraction or
decode throws is caught and contributes no hit. -/
def scanRegions (jsQR : ImageData → Except JsError (Option QRResult))
    (img : ImageData) : List DetectedCode :=
  (regions img.width img.height).foldl (scanRegionsStep jsQR img) []

/-- The body of one `scanMultipleScales` iteration before its try/catch. -/
def scaleScan (jsQR : ImageData → Except JsError (Option QRResult))
    (img : ImageData) (scale : ℚ) : Except JsError (Option QRResult) := do
  let scaledData ← scaleImageData img scale
  jsQR scaledData

/-- One `scanMultipleScales` loop iteration: a successful decode appends
the code with coordinates mapped back by `1 / scale`; a miss or caught
throw leaves the accumulator unchanged. -/
def scanScalesStep (jsQR : ImageData → Except JsError (Option QRResult))
    (img : ImageData) (codes : List DetectedCode) (scale : ℚ) :
    List DetectedCode :=
  match scaleScan jsQR img scale with
  | .ok (some result) => codes ++ [createDetectedCode result 0 0 (1 / scale)]
  | _ => codes

/-- `scanMultipleScales`: decode the frame at each scale factor; a throwing
iteration is caught and contributes no hit. -/
def scanMultipleScales (jsQR : ImageData → Except JsError (Option QRResult))
    (img : ImageData) : List DetectedCode :=
  scales.foldl (scanScalesStep jsQR img) []

/-- `detectMultipleCodes`: full-frame scan (outside any try/catch — a throw
here propagates), then region scan, then multi-scale scan, then duplicate
removal over the concatenated hits. -/
def detectMultipleCodes (jsQR : ImageData → Except JsError (Option QRResult))
    (img : ImageData) : Except JsError (List DetectedCode) := do
  let fullScanResult ← jsQR img
  let codes :=
    (match fullScanResult with
     | some result => [createDetectedCode result 0 0 1]
     | none => []) ++ scanRegions jsQR img ++ scanMultipleScales jsQR img
  .ok (removeDuplicateCodes codes)

/-- The mutable state of a `MultiQRDetector` instance: the processing queue
and the `isProcessing` flag. -/
structure DetectorState where
  processingQueue : List ImageData
  isProcessing : Bool

/-- `processFrameOptimized`: push the frame; if a pass is in flight return
an empty result immediately; otherwise set the flag, pop the most recent
frame, clear the queue, detect, and — via `finally` — clear the flag whether
detection returns or throws (the thrown error still propagates to the
caller, which is why the result stays in `Except`). -/
def processFrameOptimized (detect : ImageData → Except JsError (List DetectedCode))
    (st : DetectorState) (img : ImageData) :
    DetectorState × Except JsError (List DetectedCode) :=
  let queue := st.processingQueue ++ [img]
  if st.isProcessing then (⟨queue, true⟩, .ok [])
  else
    match queue.getLast? with
    | some latestFrame => (⟨[], false⟩, detect latestFrame)
    | none => (⟨[], false⟩, .ok [])

end MultiQRDetector

/-- JavaScript `Set.prototype.add` on an insertion-ordered string set
modelled as a duplicate-free list. -/
def setAdd (s : List String) (x : String) : List String :=
  if x ∈ s then s else s ++ [x]

namespace TrueMultiCodeScanner

/-- The fields of a `ScanResult` produced by `TrueMultiCodeScanner` that
the detection logic determines: the id template of the producing strategy
(the source appends `Date.now()` and `Math.random()`, environment-supplied
uniqueness) and the decoded text; `timestamp`, `format: QR_CODE` and
`source: camera` are constants of the construction site. -/
structure ScanResult where
  idTag : String
  text : String
deriving DecidableEq, Repr

instance : Inhabited ScanResult := ⟨⟨"", ""⟩⟩

/-- The five decode attempts of one `detectMultipleCodes` call, one per
strategy (full frame, top half, bottom half, left half, right half): each
may yield a decoded text, yield nothing, or throw (each strategy body sits
in its own try/catch).  The canvas cropping itself is browser plumbing; a
strategy's outcome abstracts crop-plus-decode for its region. -/
structure FrameScan where
  fullFrame : Except JsError (Option String)
  topHalf : Except JsError (Option String)
  bottomHalf : Except JsError (Option String)
  leftHalf : Except JsError (Option String)
  rightHalf : Except JsError (Option String)
deriving DecidableEq, Repr

/-- One strategy block of `detectMultipleCodes`: on a decode hit, the text
is pushed and recorded iff it is not in the session dedup set and — for
every strategy but the first (`checkNewCodes`) — not already found by an
earlier strategy of this frame; a caught throw or a miss leaves the
accumulated `(results, newCodes)` unchanged. -/
def strategyStep (checkNewCodes : Bool) (idTag : String)
    (outcome : Except JsError (Option String)) (session : List String)
    (acc : List ScanResult × List String) : List ScanResult × List String :=
  match outcome with
  | .ok (some text) =>
      if text ∉ session ∧ (checkNewCodes = true → text ∉ acc.2) then
        (acc.1 ++ [⟨idTag, text⟩], acc.2 ++ [text])
      else acc
  | _ => acc

/-- The five strategies in source order with their id templates; only the
full-frame strategy omits the `newCodes` re-check (its `newCodes` set is
still empty at that point). -/
def strategyOutcomes (f : FrameScan) :
    List (Bool × String × Except JsError (Option String)) :=
  [(false, "true-multi", f.fullFrame),
   (true, "true-multi-top", f.topHalf),
   (true, "true-multi-bottom", f.bottomHalf),
   (true, "true-multi-left", f.leftHalf),
   (true, "true-multi-right", f.rightHalf)]

/-- Fold a list of strategy blocks over an accumulator (general form used
for the invariant proofs). -/
def strategiesFold (session : List String)
    (acc : List ScanResult × List String)
    (l : List (Bool × String × Except JsError (Option String))) :
    List ScanResult × List String :=
  l.foldl (fun acc s => strategyStep s.1 s.2.1 s.2.2 session acc) acc

/-- Run a list of strategy blocks over the empty per-frame accumulator. -/
def runStrategies (session : List String)
    (l : List (Bool × String × Except JsError (Option String))) :
    List ScanResult × List String :=
  strategiesFold session ([], []) l

/-- What the reporting block at the end of `detectMultipleCodes` hands to
the caller. -/
inductive Delivery
  | nothing
  | single (result : ScanResult)
  | multi (results : List ScanResult)
deriving DecidableEq, Repr

/-- `detectMultipleCodes` of `TrueMultiCodeScanner`: run the five
strategies, then — only when at least one result was found — deliver via
`onSingleResult` (if provided) for exactly one result, via `onResults` for
more than one, and add the frame's new codes to the session dedup set.
`hasOnSingleResult` records whether the optional `onSingleResult` prop was
supplied.  Returns the frame's results, the delivery action, and the
updated session set. -/
def detectMultipleCodes (hasOnSingleResult : Bool) (session : List String)
    (f : FrameScan) : List ScanResult × Delivery × List String :=
  let scanned := runStrategies session (strategyOutcomes f)
  let results := scanned.1
  let newCodes := scanned.2
  if 0 < results.length then
    let delivery :=
      if results.length = 1 ∧ hasOnSingleResult = true then Delivery.single results.headI
      else if 1 < results.length then Delivery.multi results
      else Delivery.nothing
    (results, delivery, newCodes.foldl setAdd session)
  else (results, Delivery.nothing, session)

/-- A whole scanning session: fold `detectMultipleCodes` over the frames,
threading the session dedup set (created empty by `startScanning`), and
collect each frame's result list. -/
def runSession (hasOnSingleResult : Bool) :
    List String → List FrameScan → List (List ScanResult) × List String
  | session, [] => ([], session)
  | session, f :: fs =>
      let step := detectMultipleCodes hasOnSingleResult session f
      let rest := runSession hasOnSingleResult step.2.2 fs
      (step.1 :: rest.1, rest.2)

/-- The hard-coded inter-pass interval of `scanFrame` (milliseconds). -/
def SCAN_INTERVAL_MS : ℤ := 500

/-- The cadence gate of `scanFrame`, with the interval as a parameter (the
spec treats the cadence as configuration; `scanFrame` instantiates it at
500): a frame at wall-clock `now` runs a detection pass and becomes the new
`lastScanTime` only when strictly more than the interval has elapsed;
otherwise the frame is dropped and the state is unchanged (nothing is
queued). -/
def scanFrameStep (interval lastScanTime now : ℤ) : Bool × ℤ :=
  if interval < now - lastScanTime then (true, now) else (false, lastScanTime)

/-- `scanFrame`'s gate with the source's 500ms constant. -/
def scanFrame (lastScanTime now : ℤ) : Bool × ℤ :=
  scanFrameStep SCAN_INTERVAL_MS lastScanTime now

/-- Number of detection passes run when frames arrive at the given times
(`lastScanTimeRef` starts at 0, as in the component). -/
def countScans (interval : ℤ) (times : List ℤ) : ℕ :=
  (times.foldl
    (fun acc t =>
      let s := scanFrameStep interval acc.2 t
      (if s.1 then acc.1 + 1 else acc.1, s.2))
    (0, 0)).1

/-- One second of frame arrivals at 16ms spacing (the P4 scenario), on a
clock whose origin predates the first frame by more than any cadence under
discussion — mirroring `Date.now()` against an initial `lastScanTime` of 0. -/
def frameTimes : List ℤ := (List.range 63).map (fun k => 1000 + 16 * k)

end TrueMultiCodeScanner

namespace UltraFastMultiScanner

/-- The `DetectedCode` record of `UltraFastMultiScanner`. -/
structure DetectedCodeU where
  id : String
  text : String
  x : ℚ
  y : ℚ
  width : ℚ
  height : ℚ
  confidence : ℚ
  timestamp : ℚ
deriving DecidableEq, Repr

/-- The `ScanResult` fields that `addDetectedCode`'s conversion determines
(`format: QR_CODE` and `source: camera` are constants). -/
structure UltraScanResult where
  id : String
  text : String
  timestamp : ℚ
  confidence : ℚ
  boundingBox : BoundingBox
deriving DecidableEq, Repr

/-- The per-code conversion inside the batched `onResults` call. -/
def toScanResult (c : DetectedCodeU) : UltraScanResult :=
  ⟨c.id, c.text, c.timestamp, c.confidence, ⟨c.x, c.y, c.width, c.height⟩⟩

/-- JavaScript `Map.prototype.set` on an insertion-ordered association
list: replace in place if present, else append. -/
def mapSet (m : List (String × DetectedCodeU)) (key : String)
    (value : DetectedCodeU) : List (String × DetectedCodeU) :=
  if m.any (fun e => e.1 = key) then
    m.map (fun e => if e.1 = key then (key, value) else e)
  else m ++ [(key, value)]

/-- The mutable state of `UltraFastMultiScanner` threaded through
`addDetectedCode`, `processFrame` and `stopScanning`. -/
structure UltraState where
  uniqueCodesSet : List String
  codeMap : List (String × DetectedCodeU)
  lastUpdateTime : ℚ
  detectedCodes : List DetectedCodeU
  isScanning : Bool
  frameCount : ℕ
  processing : Bool
deriving DecidableEq, Repr

/-- `stopScanning`: stop the loop and clear all session state (camera/track
release and `cancelAnimationFrame` are environment effects). -/
def stopScanning (st : UltraState) : UltraState :=
  { st with
    isScanning := false
    codeMap := []
    detectedCodes := []
    uniqueCodesSet := []
    frameCount := 0 }

/-- `addDetectedCode`: drop a text already in the unique set; otherwise add
it, build the `DetectedCode` from the corner geometry and store it in the
code map.  Only when more than 16ms have passed since the last batched
update are the (at most `maxCodes`) mapped codes published via `onResults`
(returned as `some payload`), the update time advanced, and — only then —
the auto-stop check `uniqueCodesSet.size >= maxCodes` evaluated, stopping
the scanner when it holds. -/
def addDetectedCode (maxCodes : ℕ) (st : UltraState) (text : String)
    (location : QRLocation) (now : ℚ) :
    UltraState × Option (List UltraScanResult) :=
  if text ∈ st.uniqueCodesSet then (st, none)
  else
    let st1 := { st with uniqueCodesSet := setAdd st.uniqueCodesSet text }
    let codeId := text ++ "_" ++ toString ⌊location.topLeftCorner.x⌋ ++ "_" ++
      toString ⌊location.topLeftCorner.y⌋
    let newCode : DetectedCodeU :=
      { id := codeId
        text := text
        x := location.topLeftCorner.x
        y := location.topLeftCorner.y
        width := |location.topRightCorner.x - location.topLeftCorner.x|
        height := |location.bottomLeftCorner.y - location.topLeftCorner.y|
        confidence := 1
        timestamp := now }
    let st2 := { st1 with codeMap := mapSet st1.codeMap text newCode }
    if 16 < now - st2.lastUpdateTime then
      let codesArray := (st2.codeMap.map (fun e => e.2)).take maxCodes
      let scanResults := codesArray.map toScanResult
      let st3 := { st2 with detectedCodes := codesArray, lastUpdateTime := now }
      if maxCodes ≤ st3.uniqueCodesSet.length then (stopScanning st3, some scanResults)
      else (st3, some scanResults)
    else (st2, none)

/-- Outcome of one `processFrame` invocation. -/
inductive UltraPass
  | skipped
  | frameSkipped
  | completed (regionCount : ℕ)
  | failed
deriving DecidableEq, Repr

/-- The in-flight-flag skeleton of `processFrame`: return immediately when
a pass is already running; count the frame and — for two of every three
frames — reset the flag and return; otherwise set the flag, run the frame
body (canvas draw, region grid extraction and worker fan-out, abstracted as
a fallible computation producing the region count) and reset the flag at
the end of the function.  There is no try/finally: a body that throws
leaves the flag set. -/
def processFrame (st : UltraState) (body : Except JsError ℕ) :
    UltraState × UltraPass :=
  if st.processing then (st, .skipped)
  else
    let fc := st.frameCount + 1
    if ¬fc % 3 = 0 then ({ st with frameCount := fc, processing := false }, .frameSkipped)
    else
      match body with
      | .ok regionCount =>
          ({ st with frameCount := fc, processing := false }, .completed regionCount)
      | .error _ => ({ st with frameCount := fc, processing := true }, .failed)

end UltraFastMultiScanner

/-! Concrete frames and decode oracles used to instantiate the claims. -/

/-- A square jsQR corner location with top-left corner at `(x, y)`. -/
def locAt (x y : ℚ) : QRLocation :=
  ⟨⟨x, y⟩, ⟨x + 10, y⟩, ⟨x, y + 10⟩, ⟨x + 10, y + 10⟩⟩

/-- A 100×100 frame whose bottom-right quadrant pixels carry byte value 7
and all other pixels byte value 1, so crops of different quadrants are
distinguishable by their first byte. -/
def demoFrame : ImageData :=
  ⟨100, 100, fun i => if 50 ≤ i / 4 % 100 ∧ 50 ≤ i / 4 / 100 then 7 else 1⟩

/-- A 100×100 frame with no codes and an all-zero pixel buffer. -/
def blankFrame : ImageData := ⟨100, 100, fun _ => 0⟩

/-- Decode oracle for the position-collision scenario: the full frame
decodes to `ALPHA` near the frame center (top-left corner (48, 48)), and
the bottom-right quadrant crop (recognized by its first byte) decodes to
`BETA` at region-local corner (2, 2) — source-frame corner (52, 52), in
the same rounded position bucket as `ALPHA`. -/
def collisionOracle : ImageData → Except JsError (Option QRResult) := fun d =>
  if d.width = 100 ∧ d.height = 100 then .ok (some ⟨"ALPHA", 0, locAt 48 48⟩)
  else if d.width = 50 ∧ d.height = 50 ∧ d.data 0 = 7 then
    .ok (some ⟨"BETA", 0, locAt 2 2⟩)
  else .ok none

/-- Decode oracle for the two-quadrant scenario: crops containing
bottom-right pixels decode to `BETA`, all other half-size crops decode to
`ALPHA` at region-local corner (2, 2); the full frame (two codes at once)
decodes to nothing. -/
def quadrantOracle : ImageData → Except JsError (Option QRResult) := fun d =>
  if d.width = 100 ∧ d.height = 100 then .ok none
  else if d.width = 50 ∧ d.height = 50 ∧ d.data 0 = 7 then
    .ok (some ⟨"BETA", 0, locAt 2 2⟩)
  else if d.width = 50 ∧ d.height = 50 ∧ d.data 0 = 1 then
    .ok (some ⟨"ALPHA", 0, locAt 2 2⟩)
  else .ok none

/-- Decode oracle for the region-independence scenario: it throws on every
half-size crop except the bottom-right quadrant crop, which decodes to
`BETA`; the full frame decodes to nothing. -/
def faultyOracle : ImageData → Except JsError (Option QRResult) := fun d =>
  if d.width = 100 ∧ d.height = 100 then .ok none
  else if d.width = 50 ∧ d.height = 50 ∧ d.data 0 = 7 then
    .ok (some ⟨"BETA", 0, locAt 2 2⟩)
  else if d.width = 50 ∧ d.height = 50 then .error .decodeError
  else .ok none

/-- Decode oracle returning a hit with empty decoded text on the full
frame (a QR code can legitimately encode the empty string). -/
def emptyTextOracle : ImageData → Except JsError (Option QRResult) := fun d =>
  if d.width = 100 ∧ d.height = 100 then .ok (some ⟨"", 0, locAt 0 0⟩)
  else .ok none

/-- A 5×4 frame (odd width) with an all-zero pixel buffer. -/
def oddFrame : ImageData := ⟨5, 4, fun _ => 0⟩

/-- An oracle that never finds a code and never throws. -/
def silentOracle : ImageData → Except JsError (Option QRResult) := fun _ => .ok none

/-- A within-frame raw hit with text `A` whose bounding box sits at the
origin. -/
def hitA : DetectedCode :=
  ⟨"A", 1, ⟨0, 0, 10, 10⟩, ⟨⟨0, 0⟩, ⟨10, 0⟩, ⟨0, 10⟩, ⟨10, 10⟩⟩⟩

/-- A second raw hit with the same text `A` at (0, 7) — a different rounded
position bucket. -/
def hitA2 : DetectedCode :=
  ⟨"A", 1, ⟨0, 7, 10, 10⟩, ⟨⟨0, 7⟩, ⟨10, 7⟩, ⟨0, 17⟩, ⟨10, 17⟩⟩⟩

/-- A raw hit with text `B` at (2, 3): distinct text from `hitA` but the
same rounded position bucket (0, 0). -/
def hitB : DetectedCode :=
  ⟨"B", 1, ⟨2, 3, 10, 10⟩, ⟨⟨2, 3⟩, ⟨12, 3⟩, ⟨2, 13⟩, ⟨12, 13⟩⟩⟩

/-- A raw hit with text `B` at (40, 0): distinct text and distinct rounded
position bucket from both `hitA` and `hitA2`. -/
def hitB40 : DetectedCode :=
  ⟨"B", 1, ⟨40, 0, 10, 10⟩, ⟨⟨40, 0⟩, ⟨50, 0⟩, ⟨40, 10⟩, ⟨50, 10⟩⟩⟩

/-- A frame scan in which only the full-frame strategy finds a code. -/
def lonelyFrame : TrueMultiCodeScanner.FrameScan :=
  ⟨.ok (some "ALPHA"), .ok none, .ok none, .ok none, .ok none⟩

/-- An `UltraFastMultiScanner` detected-code record for witnesses. -/
def codeOf (t : String) : UltraFastMultiScanner.DetectedCodeU :=
  ⟨t ++ "_5_5", t, 5, 5, 10, 10, 1, 0⟩

/-- An `UltraFastMultiScanner` state that has already confirmed two codes
and whose last batched update happened at time 100. -/
def throttledState : UltraFastMultiScanner.UltraState :=
  ⟨["A", "B"], [("A", codeOf "A"), ("B", codeOf "B")], 100, [], true, 0, false⟩

/-- An `UltraFastMultiScanner` state about to run its third frame, with no
pass in flight. -/
def readyState : UltraFastMultiScanner.UltraState :=
  ⟨[], [], 0, [], true, 2, false⟩

/-! General lemmas about the dedup and scan folds. -/

namespace MultiQRDetector

/-- The codes kept by the dedup fold extend the codes already kept. -/
theorem foldl_dedupStep_append (codes : List DetectedCode) :
    ∀ st : DedupState, ∃ suffix,
      (codes.foldl dedupStep st).uniqueCodes = st.uniqueCodes ++ suffix := by
  induction codes with
  | nil => intro st; exact ⟨[], by simp⟩
  | cons c cs ih =>
    intro st
    rw [List.foldl_cons]
    by_cases h : c.data ∉ st.seenData ∧ positionKey c ∉ st.seenPositions
    · have hstep : dedupStep st c =
          ⟨st.uniqueCodes ++ [c], st.seenData ++ [c.data],
           st.seenPositions ++ [positionKey c]⟩ := by
        simp [dedupStep, h]
      rw [hstep]
      rcases ih ⟨st.uniqueCodes ++ [c], st.seenData ++ [c.data],
        st.seenPositions ++ [positionKey c]⟩ with ⟨suffix, hs⟩
      exact ⟨c :: suffix, by simpa using hs⟩
    · have hstep : dedupStep st c = st := by
        simp only [dedupStep, if_neg h]
      rw [hstep]
      exact ih st

/-- On inputs where hits with distinct decoded texts always have distinct
rounded position keys, the `removeDuplicateCodes` fold agrees with the
first-occurrence-per-text filter, from any pair of matching accumulators. -/
theorem foldl_dedupStep_agrees (codes : List DetectedCode) :
    ∀ u : List DetectedCode,
      List.Pairwise (fun a b => a.data ≠ b.data → positionKey a ≠ positionKey b) codes →
      (∀ c ∈ codes, ∀ v ∈ u, c.data ≠ v.data → positionKey c ≠ positionKey v) →
      (codes.foldl dedupStep
        ⟨u, u.map DetectedCode.data, u.map positionKey⟩).uniqueCodes
        = (codes.foldl keepFirstTextStep (u, u.map DetectedCode.data)).1 := by
  induction codes with
  | nil => intro u _ _; rfl
  | cons c cs ih =>
    intro u hp hcross
    rcases List.pairwise_cons.mp hp with ⟨hc, hcs⟩
    rw [List.foldl_cons, List.foldl_cons]
    by_cases hd : c.data ∈ u.map DetectedCode.data
    · have hstep : dedupStep ⟨u, u.map DetectedCode.data, u.map positionKey⟩ c =
          ⟨u, u.map DetectedCode.data, u.map positionKey⟩ := by
        simp [dedupStep, hd]
      have htext : keepFirstTextStep (u, u.map DetectedCode.data) c =
          (u, u.map DetectedCode.data) := by
        simp [keepFirstTextStep, hd]
      rw [hstep, htext]
      exact ih u hcs (fun c' hc' v hv => hcross c' (List.mem_cons_of_mem _ hc') v hv)
    · have hpos : positionKey c ∉ u.map positionKey := by
        intro hmem
        rcases List.mem_map.mp hmem with ⟨v, hv, hveq⟩
        have hne : c.data ≠ v.data := fun he => hd (he ▸ List.mem_map_of_mem _ hv)
        exact hcross c (List.mem_cons_self _ _) v hv hne hveq.symm
      have hstep : dedupStep ⟨u, u.map DetectedCode.data, u.map positionKey⟩ c =
          ⟨(u ++ [c]), (u ++ [c]).map DetectedCode.data, (u ++ [c]).map positionKey⟩ := by
        simp [dedupStep, hd, hpos]
      have htext : keepFirstTextStep (u, u.map DetectedCode.data) c =
          (u ++ [c], (u ++ [c]).map DetectedCode.data) := by
        simp [keepFirstTextStep, hd]
      rw [hstep, htext]
      refine ih (u ++ [c]) hcs ?_
      intro c' hc' v hv hne
      rcases List.mem_append.mp hv with hvu | hvc
      · exact hcross c' (List.mem_cons_of_mem _ hc') v hvu hne
      · have hvc : v = c := by simpa using hvc
        subst hvc
        exact fun he => (hc c' hc' (fun hd' => hne hd'.symm)) he.symm

/-- Membership in the region-scan accumulator is preserved by the fold. -/
theorem mem_foldl_scanRegionsStep
    (jsQR : ImageData → Except JsError (Option QRResult)) (img : ImageData)
    (rs : List Region) :
    ∀ (init : List DetectedCode) (x : DetectedCode), x ∈ init →
      x ∈ rs.foldl (scanRegionsStep jsQR img) init := by
  induction rs with
  | nil => intro init x hx; simpa using hx
  | cons r rs ih =>
    intro init x hx
    rw [List.foldl_cons]
    refine ih _ x ?_
    unfold scanRegionsStep
    split
    · exact List.mem_append_left _ hx
    · exact hx

/-- A region whose crop-and-decode pipeline succeeds contributes its
offset-adjusted code to the region-scan fold, from any accumulator. -/
theorem foldl_scanRegionsStep_mem
    (jsQR : ImageData → Except JsError (Option QRResult)) (img : ImageData)
    (rs : List Region) :
    ∀ (init : List DetectedCode) (r : Region) (res : QRResult), r ∈ rs →
      regionScan jsQR img r = .ok (some res) →
      createDetectedCode res r.x r.y 1 ∈ rs.foldl (scanRegionsStep jsQR img) init := by
  induction rs with
  | nil => intro init r res h; exact absurd h (List.not_mem_nil _)
  | cons r0 rs ih =>
    intro init r res hmem hok
    rw [List.foldl_cons]
    rcases List.mem_cons.mp hmem with heq | htl
    · subst heq
      refine mem_foldl_scanRegionsStep jsQR img rs _ _ ?_
      unfold scanRegionsStep
      rw [hok]
      exact List.mem_append_right _ (List.mem_singleton_self _)
    · exact ih _ r res htl hok

/-- Binding a successful `Except` computation runs the continuation. -/
theorem exceptBindOk {ε α β : Type} (a : α) (f : α → Except ε β) :
    (do let x ← Except.ok a; f x) = f a := rfl

/-- Binding a thrown `Except` computation propagates the error. -/
theorem exceptBindError {ε α β : Type} (er : ε) (f : α → Except ε β) :
    (do let x ← (Except.error er : Except ε α); f x) = Except.error er := rfl

/-- Floor of a natural number halved, in ℚ, is natural division by two. -/
theorem floor_natCast_half (m : ℕ) : ⌊(m : ℚ) / 2⌋ = ((m / 2 : ℕ) : ℤ) := by
  have h : ((m : ℚ) / 2) = ((m : ℤ) : ℚ) / ((2 : ℕ) : ℚ) := by push_cast; ring
  rw [h, Rat.floor_intCast_div_natCast]
  omega

/-- ToUint32 of a halved 32-bit-bounded natural width is natural division
by two (no wrap-around occurs). -/
theorem toUint32_natCast_half (m : ℕ) (hm : m < 2 ^ 32) :
    toUint32 ((m : ℚ) / 2) = m / 2 := by
  unfold toUint32
  rw [floor_natCast_half, Int.toNat_natCast]
  exact Nat.mod_eq_of_lt (lt_of_le_of_lt (Nat.div_le_self _ _) hm)

/-- Central arithmetic fact behind the odd-dimension failure: the
`ImageData` constructor validation rejects a buffer of `W*H` bytes
presented with the fractional dimensions `W/2 × H/2` whenever `W` or `H`
is odd. -/
theorem mkImageData_half_error (W H : ℕ) (hodd : Odd W ∨ Odd H)
    (hw : W < 2 ^ 32) (hh : H < 2 ^ 32) :
    ∃ e, mkImageData (W * H) ((W : ℚ) / 2) ((H : ℚ) / 2) = .error e := by
  unfold mkImageData
  rw [toUint32_natCast_half W hw, toUint32_natCast_half H hh]
  split_ifs with h1 h2 h3
  · exact ⟨.invalidState, rfl⟩
  · exact ⟨.indexSize, rfl⟩
  · exact ⟨.indexSize, rfl⟩
  · exfalso
    push_neg at h1 h2 h3
    obtain ⟨hne, hmod4⟩ := h1
    obtain ⟨hsw, hmod⟩ := h2
    have hdvd4 : 4 ∣ W * H := Nat.dvd_of_mod_eq_zero hmod4
    rcases hodd with hW | hH
    · -- odd width: the pixel count per accepted row contradicts sh = H/2
      have h4H : 4 ∣ H := by
        have hc : Nat.Coprime 4 W := by
          have h2c : Nat.Coprime 2 W := Nat.coprime_two_left.mpr hW
          have := h2c.pow_left 2
          norm_num at this
          exact this
        exact hc.dvd_of_dvd_mul_left hdvd4
      obtain ⟨c, rfl⟩ := h4H
      obtain ⟨a, ha⟩ := hW
      have hsw' : W / 2 = a := by omega
      have hpix : W * (4 * c) / 4 = W * c := by
        rw [show W * (4 * c) = 4 * (W * c) by ring]
        exact Nat.mul_div_cancel_left _ (by norm_num)
      have hsh : 4 * c / 2 = 2 * c := by omega
      rw [hpix, hsw', hsh] at h3
      rw [hsw'] at hsw
      rw [hpix, hsw'] at hmod
      have hdvd : a ∣ W * c := Nat.dvd_of_mod_eq_zero hmod
      have hmul : W * c / a * a = W * c := Nat.div_mul_cancel hdvd
      rw [h3] at hmul
      have hWc : W * c = 2 * (a * c) + c := by rw [ha]; ring
      have hca : 2 * c * a = 2 * (a * c) := by ring
      rw [hca, hWc] at hmul
      have hc0 : c = 0 := by
        generalize a * c = k at hmul
        omega
      subst hc0
      simp at hne
    · -- odd height: the pixel count is not a multiple of sw = W/2
      have h4W : 4 ∣ W := by
        have hc : Nat.Coprime 4 H := by
          have h2c : Nat.Coprime 2 H := Nat.coprime_two_left.mpr hH
          have := h2c.pow_left 2
          norm_num at this
          exact this
        exact hc.dvd_of_dvd_mul_right hdvd4
      obtain ⟨b, rfl⟩ := h4W
      have hb : 0 < b := by
        rcases Nat.eq_zero_or_pos b with rfl | hb
        · simp at hne
        · exact hb
      obtain ⟨m, hm⟩ := hH
      have hsw' : 4 * b / 2 = 2 * b := by omega
      have hpix : 4 * b * H / 4 = b * H := by
        rw [show 4 * b * H = 4 * (b * H) by ring]
        exact Nat.mul_div_cancel_left _ (by norm_num)
      rw [hpix, hsw'] at hmod
      have hbH : b * H = b + 2 * b * m := by rw [hm]; ring
      rw [hbH, Nat.add_mul_mod_self_left] at hmod
      rw [Nat.mod_eq_of_lt (by omega)] at hmod
      omega

/-- Region dimensions produced by `regions`. -/
theorem regions_dims (W H : ℕ) (r : Region) (hr : r ∈ regions W H) :
    r.w = (W : ℚ) / 2 ∧ r.h = (H : ℚ) / 2 := by
  simp only [regions, List.mem_cons, List.not_mem_nil, or_false] at hr
  rcases hr with rfl | rfl | rfl | rfl | rfl <;> exact ⟨rfl, rfl⟩

/-- The typed-array allocation of a half-by-half crop always succeeds with
`W*H` bytes: the fractional factors cancel. -/
theorem mkUint8ClampedArray_half (W H : ℕ) :
    mkUint8ClampedArray ((W : ℚ) / 2 * ((H : ℚ) / 2) * 4) = .ok (W * H) := by
  have hq : (W : ℚ) / 2 * ((H : ℚ) / 2) * 4 = ((W * H : ℕ) : ℚ) := by
    push_cast
    ring
  rw [hq]
  unfold mkUint8ClampedArray
  rw [if_pos ⟨Rat.den_natCast _, by rw [Rat.num_natCast]; exact Int.natCast_nonneg _⟩]
  rw [Rat.num_natCast, Int.toNat_natCast]

/-- With an odd frame dimension, every region crop fails: the buffer is
allocated but the `ImageData` construction throws. -/
theorem extractRegion_error_of_odd (img : ImageData) (r : Region)
    (hr : r ∈ regions img.width img.height)
    (hodd : Odd img.width ∨ Odd img.height)
    (hw : img.width < 2 ^ 32) (hh : img.height < 2 ^ 32) :
    ∃ e, extractRegion img r = .error e := by
  obtain ⟨hrw, hrh⟩ := regions_dims img.width img.height r hr
  obtain ⟨e, he⟩ := mkImageData_half_error img.width img.height hodd hw hh
  refine ⟨e, ?_⟩
  unfold extractRegion
  rw [hrw, hrh, mkUint8ClampedArray_half, exceptBindOk]
  rw [he, exceptBindError]

/-- Regions whose pipeline throws or misses leave the fold unchanged. -/
theorem foldl_scanRegionsStep_of_all_error
    (jsQR : ImageData → Except JsError (Option QRResult)) (img : ImageData)
    (rs : List Region) :
    ∀ init : List DetectedCode,
      (∀ r ∈ rs, ∃ e, regionScan jsQR img r = .error e) →
      rs.foldl (scanRegionsStep jsQR img) init = init := by
  induction rs with
  | nil => intro init _; rfl
  | cons r rs ih =>
    intro init hall
    rw [List.foldl_cons]
    rcases hall r (List.mem_cons_self _ _) with ⟨e, he⟩
    have hstep : scanRegionsStep jsQR img init r = init := by
      unfold scanRegionsStep
      rw [he]
    rw [hstep]
    exact ih init (fun r' hr' => hall r' (List.mem_cons_of_mem _ hr'))

end MultiQRDetector

/-! Lemmas about the TrueMultiCodeScanner per-frame scan and session. -/

namespace TrueMultiCodeScanner

/-- Reduction of a strategy block on a decode hit. -/
theorem strategyStep_ok_some (ck : Bool) (tag t : String) (session : List String)
    (acc : List ScanResult × List String) :
    strategyStep ck tag (.ok (some t)) session acc =
      if t ∉ session ∧ (ck = true → t ∉ acc.2) then
        (acc.1 ++ [⟨tag, t⟩], acc.2 ++ [t])
      else acc := rfl

/-- Each strategy block either leaves the accumulator unchanged or appends
one result whose text is new to the session. -/
theorem strategyStep_eq_or (ck : Bool) (tag : String)
    (outc : Except JsError (Option String)) (session : List String)
    (acc : List ScanResult × List String) :
    strategyStep ck tag outc session acc = acc ∨
    ∃ t, outc = .ok (some t) ∧ t ∉ session ∧
      strategyStep ck tag outc session acc = (acc.1 ++ [⟨tag, t⟩], acc.2 ++ [t]) := by
  cases outc with
  | error e => exact Or.inl rfl
  | ok o =>
    cases o with
    | none => exact Or.inl rfl
    | some t =>
      rw [strategyStep_ok_some]
      by_cases h : t ∉ session ∧ (ck = true → t ∉ acc.2)
      · exact Or.inr ⟨t, rfl, h.1, by rw [if_pos h]⟩
      · exact Or.inl (by rw [if_neg h])

/-- A re-checking strategy block preserves the frame invariant: the result
texts list the `newCodes` set in order, without duplicates, and disjoint
from the session set. -/
theorem strategyStep_inv (tag : String) (outc : Except JsError (Option String))
    (session : List String) (acc : List ScanResult × List String)
    (h1 : acc.1.map ScanResult.text = acc.2) (h2 : acc.2.Nodup)
    (h3 : ∀ t ∈ acc.2, t ∉ session) :
    (strategyStep true tag outc session acc).1.map ScanResult.text =
      (strategyStep true tag outc session acc).2 ∧
    (strategyStep true tag outc session acc).2.Nodup ∧
    ∀ t ∈ (strategyStep true tag outc session acc).2, t ∉ session := by
  cases outc with
  | error e => exact ⟨h1, h2, h3⟩
  | ok o =>
    cases o with
    | none => exact ⟨h1, h2, h3⟩
    | some t =>
      rw [strategyStep_ok_some]
      by_cases h : t ∉ session ∧ (true = true → t ∉ acc.2)
      · rw [if_pos h]
        refine ⟨by simp [h1], ?_, ?_⟩
        · simp only [List.nodup_append, List.nodup_cons, List.nodup_nil]
          exact ⟨h2, by simp, by simpa using h.2 rfl⟩
        · intro t' ht'
          rcases List.mem_append.mp ht' with hmem | hmem
          · exact h3 t' hmem
          · simpa using (List.mem_singleton.mp hmem) ▸ h.1
      · rw [if_neg h]
        exact ⟨h1, h2, h3⟩

/-- The strategy fold preserves the frame invariant when every remaining
block re-checks `newCodes`. -/
theorem strategiesFold_inv (session : List String)
    (l : List (Bool × String × Except JsError (Option String))) :
    ∀ acc : List ScanResult × List String,
      (∀ e ∈ l, e.1 = true) →
      acc.1.map ScanResult.text = acc.2 → acc.2.Nodup →
      (∀ t ∈ acc.2, t ∉ session) →
      (strategiesFold session acc l).1.map ScanResult.text =
        (strategiesFold session acc l).2 ∧
      (strategiesFold session acc l).2.Nodup ∧
      ∀ t ∈ (strategiesFold session acc l).2, t ∉ session := by
  induction l with
  | nil => intro acc _ h1 h2 h3; exact ⟨h1, h2, h3⟩
  | cons e l ih =>
    obtain ⟨b, tag, outc⟩ := e
    intro acc hl h1 h2 h3
    have he : b = true := hl (b, tag, outc) (List.mem_cons_self _ _)
    subst he
    have hstep := strategyStep_inv tag outc session acc h1 h2 h3
    have hfold : strategiesFold session acc ((true, tag, outc) :: l) =
        strategiesFold session (strategyStep true tag outc session acc) l := by
      unfold strategiesFold
      rw [List.foldl_cons]
    rw [hfold]
    exact ih _ (fun e' he' => hl e' (List.mem_cons_of_mem _ he'))
      hstep.1 hstep.2.1 hstep.2.2

/-- The `newCodes` set only grows along the strategy fold. -/
theorem mem_snd_strategiesFold (session : List String)
    (l : List (Bool × String × Except JsError (Option String))) :
    ∀ (acc : List ScanResult × List String) (t : String),
      t ∈ acc.2 → t ∈ (strategiesFold session acc l).2 := by
  induction l with
  | nil => intro acc t ht; exact ht
  | cons e l ih =>
    intro acc t ht
    have hfold : strategiesFold session acc (e :: l) =
        strategiesFold session (strategyStep e.1 e.2.1 e.2.2 session acc) l := by
      unfold strategiesFold
      rw [List.foldl_cons]
    rw [hfold]
    rcases strategyStep_eq_or e.1 e.2.1 e.2.2 session acc with h | ⟨t', _, _, h⟩
    · rw [h]; exact ih acc t ht
    · rw [h]; exact ih _ t (List.mem_append_left _ ht)

/-- The frame invariant holds for the full five-strategy scan of a frame:
result texts equal the `newCodes` list, which is duplicate-free and
disjoint from the session dedup set. -/
theorem runStrategies_inv (session : List String) (f : FrameScan) :
    (runStrategies session (strategyOutcomes f)).1.map ScanResult.text =
      (runStrategies session (strategyOutcomes f)).2 ∧
    (runStrategies session (strategyOutcomes f)).2.Nodup ∧
    ∀ t ∈ (runStrategies session (strategyOutcomes f)).2, t ∉ session := by
  have hfold : runStrategies session (strategyOutcomes f) =
      strategiesFold session
        (strategyStep false "true-multi" f.fullFrame session ([], []))
        [(true, "true-multi-top", f.topHalf),
         (true, "true-multi-bottom", f.bottomHalf),
         (true, "true-multi-left", f.leftHalf),
         (true, "true-multi-right", f.rightHalf)] := by
    unfold runStrategies strategyOutcomes strategiesFold
    rw [List.foldl_cons]
  rw [hfold]
  have hl : ∀ e ∈ [((true : Bool), "true-multi-top", f.topHalf),
      (true, "true-multi-bottom", f.bottomHalf),
      (true, "true-multi-left", f.leftHalf),
      (true, "true-multi-right", f.rightHalf)], e.1 = true := by
    intro e he
    simp only [List.mem_cons, List.not_mem_nil, or_false] at he
    rcases he with rfl | rfl | rfl | rfl <;> rfl
  rcases strategyStep_eq_or false "true-multi" f.fullFrame session ([], []) with
    h | ⟨t, _, hts, h⟩
  · rw [h]
    exact strategiesFold_inv session _ ([], []) hl (by simp) (by simp) (by simp)
  · rw [h]
    refine strategiesFold_inv session _ _ hl (by simp) (by simp) ?_
    intro t' ht'
    simpa using (by simpa using ht' : t' = t) ▸ hts

/-- A full-frame decode of a session-new text is always captured in the
frame's `newCodes`. -/
theorem runStrategies_captures_full (session : List String) (f : FrameScan)
    (t : String) (hfull : f.fullFrame = .ok (some t)) (hts : t ∉ session) :
    t ∈ (runStrategies session (strategyOutcomes f)).2 := by
  have hfold : runStrategies session (strategyOutcomes f) =
      strategiesFold session
        (strategyStep false "true-multi" f.fullFrame session ([], []))
        [(true, "true-multi-top", f.topHalf),
         (true, "true-multi-bottom", f.bottomHalf),
         (true, "true-multi-left", f.leftHalf),
         (true, "true-multi-right", f.rightHalf)] := by
    unfold runStrategies strategyOutcomes strategiesFold
    rw [List.foldl_cons]
  rw [hfold]
  have hfirst : strategyStep false "true-multi" f.fullFrame session ([], []) =
      ([⟨"true-multi", t⟩], [t]) := by
    rw [hfull, strategyStep_ok_some]
    rw [if_pos ⟨hts, by simp⟩]
    rfl
  rw [hfirst]
  exact mem_snd_strategiesFold session _ _ t (by simp)

/-- The first component of `detectMultipleCodes` is always the frame's
result list. -/
theorem detect_results (hs : Bool) (session : List String) (f : FrameScan) :
    (detectMultipleCodes hs session f).1 =
      (runStrategies session (strategyOutcomes f)).1 := by
  by_cases h : 0 < (runStrategies session (strategyOutcomes f)).1.length
  · simp [detectMultipleCodes, h]
  · simp [detectMultipleCodes, h]

/-- The session set after a frame with at least one result is the fold of
`setAdd` over the frame's `newCodes`. -/
theorem detect_session_pos (hs : Bool) (session : List String) (f : FrameScan)
    (h : 0 < (runStrategies session (strategyOutcomes f)).1.length) :
    (detectMultipleCodes hs session f).2.2 =
      (runStrategies session (strategyOutcomes f)).2.foldl setAdd session := by
  simp [detectMultipleCodes, h]

/-- The session set after a resultless frame is unchanged. -/
theorem detect_session_nil (hs : Bool) (session : List String) (f : FrameScan)
    (h : ¬0 < (runStrategies session (strategyOutcomes f)).1.length) :
    (detectMultipleCodes hs session f).2.2 = session := by
  simp [detectMultipleCodes, h]

/-- `setAdd` folds only grow the set. -/
theorem mem_foldl_setAdd_left (l : List String) :
    ∀ (s : List String) (x : String), x ∈ s → x ∈ l.foldl Scanner.setAdd s := by
  induction l with
  | nil => intro s x hx; exact hx
  | cons y l ih =>
    intro s x hx
    rw [List.foldl_cons]
    refine ih _ x ?_
    unfold Scanner.setAdd
    split
    · exact hx
    · exact List.mem_append_left _ hx

/-- Every element folded in by `setAdd` ends up in the set. -/
theorem mem_foldl_setAdd_right (l : List String) :
    ∀ (s : List String) (x : String), x ∈ l → x ∈ l.foldl Scanner.setAdd s := by
  induction l with
  | nil => intro s x hx; exact absurd hx (List.not_mem_nil _)
  | cons y l ih =>
    intro s x hx
    rw [List.foldl_cons]
    rcases List.mem_cons.mp hx with rfl | hx'
    · refine mem_foldl_setAdd_left l _ x ?_
      unfold Scanner.setAdd
      split
      · assumption
      · exact List.mem_append_right _ (List.mem_singleton_self _)
    · exact ih _ x hx'

/-- The session set never shrinks across one frame. -/
theorem detect_session_mono (hs : Bool) (session : List String) (f : FrameScan)
    (x : String) (hx : x ∈ session) : x ∈ (detectMultipleCodes hs session f).2.2 := by
  by_cases h : 0 < (runStrategies session (strategyOutcomes f)).1.length
  · rw [detect_session_pos hs session f h]
    exact mem_foldl_setAdd_left _ session x hx
  · rw [detect_session_nil hs session f h]
    exact hx

/-- Every result of a frame has a text outside the incoming session set. -/
theorem detect_results_new (hs : Bool) (session : List String) (f : FrameScan)
    (r : ScanResult) (hr : r ∈ (detectMultipleCodes hs session f).1) :
    r.text ∉ session := by
  rw [detect_results] at hr
  rcases runStrategies_inv session f with ⟨h1, _, h3⟩
  exact h3 r.text (h1 ▸ List.mem_map_of_mem ScanResult.text hr)

/-- Every result of a frame has its text recorded in the outgoing session
set. -/
theorem detect_results_recorded (hs : Bool) (session : List String) (f : FrameScan)
    (r : ScanResult) (hr : r ∈ (detectMultipleCodes hs session f).1) :
    r.text ∈ (detectMultipleCodes hs session f).2.2 := by
  rw [detect_results] at hr
  have hpos : 0 < (runStrategies session (strategyOutcomes f)).1.length :=
    List.length_pos.mpr (List.ne_nil_of_mem hr)
  rw [detect_session_pos hs session f hpos]
  rcases runStrategies_inv session f with ⟨h1, _, _⟩
  exact mem_foldl_setAdd_right _ session r.text
    (h1 ▸ List.mem_map_of_mem ScanResult.text hr)

/-- The texts of one frame's results are duplicate-free. -/
theorem detect_results_nodup (hs : Bool) (session : List String) (f : FrameScan) :
    ((detectMultipleCodes hs session f).1.map ScanResult.text).Nodup := by
  rw [detect_results]
  rcases runStrategies_inv session f with ⟨h1, h2, _⟩
  rw [h1]
  exact h2

/-- A frame whose full-frame strategy decodes a session-new text emits a
result with that text. -/
theorem detect_captures_full (hs : Bool) (session : List String) (f : FrameScan)
    (t : String) (hfull : f.fullFrame = .ok (some t)) (hts : t ∉ session) :
    t ∈ (detectMultipleCodes hs session f).1.map ScanResult.text := by
  rw [detect_results]
  rcases runStrategies_inv session f with ⟨h1, _, _⟩
  rw [h1]
  exact runStrategies_captures_full session f t hfull hts

/-- Unfolding one frame of a session run. -/
theorem runSession_cons (hs : Bool) (session : List String) (f : FrameScan)
    (fs : List FrameScan) :
    (runSession hs session (f :: fs)).1.flatten =
      (detectMultipleCodes hs session f).1 ++
        (runSession hs (detectMultipleCodes hs session f).2.2 fs).1.flatten := by
  rw [runSession]
  exact List.flatten_cons

/-- No emission of a session carries a text already in the session set the
session started from. -/
theorem runSession_emissions_new (hs : Bool) (frames : List FrameScan) :
    ∀ (session : List String) (r : ScanResult),
      r ∈ (runSession hs session frames).1.flatten → r.text ∉ session := by
  induction frames with
  | nil => intro session r hr; simp [runSession] at hr
  | cons f fs ih =>
    intro session r hr
    rw [runSession_cons] at hr
    rcases List.mem_append.mp hr with hr | hr
    · exact detect_results_new hs session f r hr
    · intro hmem
      exact ih _ r hr (detect_session_mono hs session f _ hmem)

/-- The texts emitted across a whole session are pairwise distinct. -/
theorem runSession_flatten_nodup (hs : Bool) (frames : List FrameScan) :
    ∀ session : List String,
      ((runSession hs session frames).1.flatten.map ScanResult.text).Nodup := by
  induction frames with
  | nil => intro session; simp [runSession]
  | cons f fs ih =>
    intro session
    rw [runSession_cons, List.map_append, List.nodup_append]
    refine ⟨detect_results_nodup hs session f, ih _, ?_⟩
    intro x hx hx'
    rcases List.mem_map.mp hx with ⟨r, hr, rfl⟩
    rcases List.mem_map.mp hx' with ⟨r', hr', heq⟩
    have hrec := detect_results_recorded hs session f r hr
    have hnew := runSession_emissions_new hs fs _ r' hr'
    exact hnew (heq ▸ hrec)

/-- A text present in the session set is never emitted afterwards. -/
theorem runSession_count_zero (hs : Bool) (frames : List FrameScan)
    (session : List String) (t : String) (ht : t ∈ session) :
    ((runSession hs session frames).1.flatten.map ScanResult.text).count t = 0 := by
  rw [List.count_eq_zero]
  intro hmem
  rcases List.mem_map.mp hmem with ⟨r, hr, rfl⟩
  exact runSession_emissions_new hs frames session r hr ht

end TrueMultiCodeScanner

/-! Claim theorems. -/

open MultiQRDetector

/-- Halving an odd natural number in ℚ leaves a non-integral value. -/
theorem den_half_ne_one (W : ℕ) (hW : Odd W) : ((W : ℚ) / 2).den ≠ 1 := by
  intro h
  rw [show ((2 : ℚ)) = ((2 : ℕ) : ℚ) by norm_num,
    Rat.den_div_natCast_eq_one_iff W 2 (by norm_num)] at h
  obtain ⟨a, ha⟩ := hW
  omega

/-- Claim C10: on a frame with an odd width or height, every one of the
five region crops has a fractional dimension and its buffer construction
throws; the exceptions are caught per region, the region scan contributes
zero hits, and the detection pass completes normally with only the
full-frame and multi-scale hits.  The 2^32 bounds reflect the 32-bit range
of canvas dimensions. -/
theorem claim_C10_theorem (jsQR : ImageData → Except JsError (Option QRResult))
    (img : ImageData) (hodd : Odd img.width ∨ Odd img.height)
    (hw : img.width < 2 ^ 32) (hh : img.height < 2 ^ 32) :
    (∀ r ∈ regions img.width img.height,
      (r.w.den ≠ 1 ∨ r.h.den ≠ 1) ∧ ∃ e, extractRegion img r = .error e) ∧
    scanRegions jsQR img = [] ∧
    detectMultipleCodes jsQR img =
      (jsQR img).bind (fun fullScanResult =>
        .ok (removeDuplicateCodes
          ((match fullScanResult with
            | some result => [createDetectedCode result 0 0 1]
            | none => []) ++ scanMultipleScales jsQR img))) := by
  have hscan : scanRegions jsQR img = [] := by
    unfold scanRegions
    refine foldl_scanRegionsStep_of_all_error jsQR img _ [] ?_
    intro r hr
    obtain ⟨e, he⟩ := extractRegion_error_of_odd img r hr hodd hw hh
    refine ⟨e, ?_⟩
    unfold regionScan
    rw [he, exceptBindError]
  refine ⟨?_, hscan, ?_⟩
  · intro r hr
    obtain ⟨hrw, hrh⟩ := regions_dims img.width img.height r hr
    refine ⟨?_, extractRegion_error_of_odd img r hr hodd hw hh⟩
    rcases hodd with hW | hH
    · exact Or.inl (hrw ▸ den_half_ne_one img.width hW)
    · exact Or.inr (hrh ▸ den_half_ne_one img.height hH)
  · have hstep1 : detectMultipleCodes jsQR img =
        (jsQR img).bind (fun fullScanResult =>
          .ok (removeDuplicateCodes
            ((match fullScanResult with
              | some result => [createDetectedCode result 0 0 1]
              | none => []) ++ scanRegions jsQR img ++
              scanMultipleScales jsQR img))) := by
      with_unfolding_all rfl
    rw [hstep1]
    refine congrArg (Except.bind (jsQR img)) (funext fun fullScanResult => ?_)
    rw [hscan, List.append_nil]

/-- Claim C10, witness: a 5×4 frame with a silent decode oracle — the
region scan is empty and the pass completes. -/
theorem claim_C10_witness : scanRegions silentOracle oddFrame = [] :=
  (claim_C10_theorem silentOracle oddFrame (Or.inl (by decide))
    (by norm_num [oddFrame]) (by norm_num [oddFrame])).2.1

/-- Claim C1: session-level dedup under the skip policy — across any
scanning session starting from an empty dedup set, no two emitted results
carry identical decoded text; and when the same code's text is decodable
(by the full-frame strategy) in every frame of a nonempty session, exactly
one result with that text is emitted during the whole session. -/
theorem claim_C1_theorem (hs : Bool) (frames : List TrueMultiCodeScanner.FrameScan)
    (t : String) (hne : frames ≠ [])
    (hall : ∀ f ∈ frames, f.fullFrame = Except.ok (some t)) :
    (((TrueMultiCodeScanner.runSession hs [] frames).1.flatten).map
      TrueMultiCodeScanner.ScanResult.text).Nodup ∧
    (((TrueMultiCodeScanner.runSession hs [] frames).1.flatten).map
      TrueMultiCodeScanner.ScanResult.text).count t = 1 := by
  constructor
  · exact TrueMultiCodeScanner.runSession_flatten_nodup hs frames []
  · cases frames with
    | nil => exact absurd rfl hne
    | cons f fs =>
      rw [TrueMultiCodeScanner.runSession_cons, List.map_append, List.count_append]
      have hcap : t ∈ (TrueMultiCodeScanner.detectMultipleCodes hs [] f).1.map
          TrueMultiCodeScanner.ScanResult.text :=
        TrueMultiCodeScanner.detect_captures_full hs [] f t
          (hall f (List.mem_cons_self _ _)) (List.not_mem_nil t)
      have h1 : ((TrueMultiCodeScanner.detectMultipleCodes hs [] f).1.map
          TrueMultiCodeScanner.ScanResult.text).count t = 1 :=
        List.count_eq_one_of_mem (TrueMultiCodeScanner.detect_results_nodup hs [] f) hcap
      have ht' : t ∈ (TrueMultiCodeScanner.detectMultipleCodes hs [] f).2.2 := by
        rcases List.mem_map.mp hcap with ⟨r, hr, rfl⟩
        exact TrueMultiCodeScanner.detect_results_recorded hs [] f r hr
      have h2 := TrueMultiCodeScanner.runSession_count_zero hs fs
        (TrueMultiCodeScanner.detectMultipleCodes hs [] f).2.2 t ht'
      rw [h1, h2]

/-- Claim C1, witness: a two-frame session decoding `ALPHA` in every frame
emits `ALPHA` exactly once, with no duplicate texts overall. -/
theorem claim_C1_witness :
    (((TrueMultiCodeScanner.runSession true [] [lonelyFrame, lonelyFrame]).1.flatten).map
      TrueMultiCodeScanner.ScanResult.text).Nodup ∧
    (((TrueMultiCodeScanner.runSession true [] [lonelyFrame, lonelyFrame]).1.flatten).map
      TrueMultiCodeScanner.ScanResult.text).count "ALPHA" = 1 :=
  claim_C1_theorem true [lonelyFrame, lonelyFrame] "ALPHA" (by simp)
    (of_decide_eq_true (by with_unfolding_all rfl))

/-- Claim C2, counterexample: within-frame dedup does not keep the first
occurrence of each distinct decoded text.  On the two raw hits `A` at
(0, 0) and `B` at (2, 3) — distinct texts, but the same rounded position
bucket — `removeDuplicateCodes` keeps only `A`, while the spec's
first-occurrence-per-text filter keeps both. -/
theorem claim_C2_counterexample :
    (removeDuplicateCodes [hitA, hitB]).map DetectedCode.data = ["A"] ∧
    (dedupByFirstText [hitA, hitB]).map DetectedCode.data = ["A", "B"] :=
  of_decide_eq_true (by with_unfolding_all rfl)

/-- Claim C2, amended: whenever raw hits with distinct decoded texts have
distinct rounded position keys, within-frame dedup keeps exactly the first
occurrence of each distinct decoded text in scan order, preserving order
and the retained hit's record (bounding box included) — the dedup fold and
the spec's first-occurrence-per-text filter return the same list. -/
theorem claim_C2_theorem (codes : List DetectedCode)
    (h : List.Pairwise
      (fun a b => a.data ≠ b.data → positionKey a ≠ positionKey b) codes) :
    removeDuplicateCodes codes = dedupByFirstText codes := by
  have hmain := foldl_dedupStep_agrees codes [] h (by simp)
  simpa [removeDuplicateCodes, dedupByFirstText] using hmain

/-- Claim C2, witness: two hits with text `A` (different buckets) and one
with text `B`; both dedups keep the first `A` and the `B`. -/
theorem claim_C2_witness :
    removeDuplicateCodes [hitA, hitA2, hitB40] = dedupByFirstText [hitA, hitA2, hitB40] :=
  claim_C2_theorem [hitA, hitA2, hitB40] (of_decide_eq_true (by with_unfolding_all rfl))

/-- Claim C4: region independence of `scanRegions` — a decode pipeline
that throws for region `rA` and succeeds for region `rB` of the scanned
partition still yields `rB`'s offset-adjusted result; per-region throws are
caught and never suppress another region's hit. -/
theorem claim_C4_theorem (jsQR : ImageData → Except JsError (Option QRResult))
    (img : ImageData) (rA rB : Region) (res : QRResult)
    (_hA : ∃ e, regionScan jsQR img rA = .error e)
    (hB : rB ∈ regions img.width img.height)
    (hok : regionScan jsQR img rB = .ok (some res)) :
    createDetectedCode res rB.x rB.y 1 ∈ scanRegions jsQR img := by
  unfold scanRegions
  exact foldl_scanRegionsStep_mem jsQR img _ [] rB res hB hok

/-- Claim C4, witness: on the demo frame, the oracle throws for the
top-left quadrant crop yet the bottom-right quadrant's `BETA` hit is still
produced. -/
theorem claim_C4_witness :
    createDetectedCode ⟨"BETA", 0, locAt 2 2⟩ 50 50 1 ∈ scanRegions faultyOracle demoFrame :=
  claim_C4_theorem faultyOracle demoFrame ⟨0, 0, 50, 50⟩ ⟨50, 50, 50, 50⟩
    ⟨"BETA", 0, locAt 2 2⟩
    ⟨.decodeError, by with_unfolding_all rfl⟩
    (of_decide_eq_true (by with_unfolding_all rfl))
    (by with_unfolding_all rfl)

/-- Claim C9, counterexample: a raw hit with empty decoded text is not
rejected — with a full-frame decode returning the empty string, the
detection pass emits a `DetectedCode` whose decoded text is `""`. -/
theorem claim_C9_counterexample :
    (detectMultipleCodes emptyTextOracle blankFrame).map (List.map DetectedCode.data)
      = .ok [""] := by
  with_unfolding_all rfl

/-- Claim C9, amended: no empty-text filtering exists — the full-frame hit
is always emitted as the first `DetectedCode` of the pass, whatever its
decoded text (the empty string included); it is never dropped by the
aggregation. -/
theorem claim_C9_theorem (jsQR : ImageData → Except JsError (Option QRResult))
    (img : ImageData) (result : QRResult)
    (h : jsQR img = .ok (some result)) :
    ∃ rest, detectMultipleCodes jsQR img =
      .ok (createDetectedCode result 0 0 1 :: rest) := by
  have hbind : detectMultipleCodes jsQR img =
      .ok (removeDuplicateCodes
        ([createDetectedCode result 0 0 1] ++ scanRegions jsQR img ++
          scanMultipleScales jsQR img)) := by
    unfold detectMultipleCodes
    rw [h]
    rfl
  rcases foldl_dedupStep_append
      (scanRegions jsQR img ++ scanMultipleScales jsQR img)
      ⟨[createDetectedCode result 0 0 1],
       [(createDetectedCode result 0 0 1).data],
       [positionKey (createDetectedCode result 0 0 1)]⟩ with ⟨suffix, hs⟩
  refine ⟨suffix, ?_⟩
  rw [hbind]
  have hkeep : removeDuplicateCodes
      ([createDetectedCode result 0 0 1] ++ scanRegions jsQR img ++
        scanMultipleScales jsQR img)
      = createDetectedCode result 0 0 1 :: suffix := by
    unfold removeDuplicateCodes
    rw [List.append_assoc, List.singleton_append, List.foldl_cons]
    have hfirst : dedupStep ⟨[], [], []⟩ (createDetectedCode result 0 0 1) =
        ⟨[createDetectedCode result 0 0 1],
         [(createDetectedCode result 0 0 1).data],
         [positionKey (createDetectedCode result 0 0 1)]⟩ := by
      simp [dedupStep]
    rw [hfirst, hs]
    rfl
  rw [hkeep]

/-- Claim C9, witness: the amended statement instantiated at the
empty-string full-frame decode. -/
theorem claim_C9_witness :
    ∃ rest, detectMultipleCodes emptyTextOracle blankFrame =
      .ok (createDetectedCode ⟨"", 0, locAt 0 0⟩ 0 0 1 :: rest) :=
  claim_C9_theorem emptyTextOracle blankFrame ⟨"", 0, locAt 0 0⟩
    (by with_unfolding_all rfl)

/-- Claim C3, counterexample: on the demo frame the bottom-right quadrant
decodes the new text `BETA` (top-left corner (52, 52) after offset
adjustment), the full frame decodes `ALPHA` at (48, 48) — two codes with
distinct texts — yet the pass emits only `ALPHA`: `BETA` falls into the
same rounded position bucket and is dropped because of another hit's
position. -/
theorem claim_C3_counterexample :
    regionScan collisionOracle demoFrame ⟨50, 50, 50, 50⟩ =
      .ok (some ⟨"BETA", 0, locAt 2 2⟩) ∧
    (detectMultipleCodes collisionOracle demoFrame).map (List.map DetectedCode.data)
      = .ok ["ALPHA"] :=
  ⟨by with_unfolding_all rfl, by with_unfolding_all rfl⟩

/-- Claim C3, amended: the two-quadrant scenario with `ALPHA` in the
top-left and `BETA` in the bottom-right quadrant, whose hits land in
distinct rounded position buckets, emits exactly two results — texts
`ALPHA` then `BETA`, no duplicates, in partition-scan order. -/
theorem claim_C3_theorem :
    (detectMultipleCodes quadrantOracle demoFrame).map (List.map DetectedCode.data)
      = .ok ["ALPHA", "BETA"] := by
  with_unfolding_all rfl

set_option maxRecDepth 100000 in
/-- Claim C5: the scan-frame gate drops (does not queue) every frame that
arrives no more than the cadence interval after the last completed pass,
leaving the gate state unchanged; and with a 200ms cadence, one second of
frames at 16ms spacing yields exactly 5 detection passes — at most the
claimed 5–6, not ~60. -/
theorem claim_C5_theorem (interval lastScanTime now : ℤ)
    (h : now - lastScanTime ≤ interval) :
    TrueMultiCodeScanner.scanFrameStep interval lastScanTime now = (false, lastScanTime) ∧
    TrueMultiCodeScanner.countScans 200 TrueMultiCodeScanner.frameTimes = 5 ∧
    TrueMultiCodeScanner.countScans 200 TrueMultiCodeScanner.frameTimes ≤ 6 := by
  refine ⟨?_, by with_unfolding_all rfl, of_decide_eq_true (by with_unfolding_all rfl)⟩
  unfold TrueMultiCodeScanner.scanFrameStep
  rw [if_neg (by omega)]

/-- Claim C5, witness: a frame 100ms after the last pass under a 200ms
cadence is dropped, and the one-second 16ms-spacing run counts 5 passes. -/
theorem claim_C5_witness :
    TrueMultiCodeScanner.scanFrameStep 200 1000 1100 = (false, 1000) ∧
    TrueMultiCodeScanner.countScans 200 TrueMultiCodeScanner.frameTimes = 5 ∧
    TrueMultiCodeScanner.countScans 200 TrueMultiCodeScanner.frameTimes ≤ 6 :=
  claim_C5_theorem 200 1000 1100 (by norm_num)

/-- Claim C6, counterexample: in `UltraFastMultiScanner.processFrame`
there is no try/finally — a pass whose body throws leaves the in-flight
flag set, so the flag is not cleared on error as the claim states. -/
theorem claim_C6_counterexample :
    (UltraFastMultiScanner.processFrame readyState (.error .decodeError)).1.processing = true ∧
    (UltraFastMultiScanner.processFrame readyState (.error .decodeError)).2 =
      UltraFastMultiScanner.UltraPass.failed :=
  of_decide_eq_true (by with_unfolding_all rfl)

/-- Claim C6, amended: in `processFrameOptimized` at most one pass is in
flight — a call arriving while a pass is running only queues the frame and
returns an empty result without detecting, and a call that does run a pass
always leaves the flag cleared, whether the detection returns or throws
(`detect` here is arbitrary, and may be the always-throwing function);
`UltraFastMultiScanner.processFrame`, by contrast, clears its flag only on
normal completion. -/
theorem claim_C6_theorem (detect : ImageData → Except JsError (List DetectedCode))
    (st : DetectorState) (img : ImageData) :
    (st.isProcessing = false →
      (processFrameOptimized detect st img).1.isProcessing = false) ∧
    (st.isProcessing = true →
      processFrameOptimized detect st img =
        (⟨st.processingQueue ++ [img], true⟩, .ok [])) := by
  constructor
  · intro h
    unfold processFrameOptimized
    rw [h]
    cases hq : (st.processingQueue ++ [img]).getLast? <;> simp [hq]
  · intro h
    unfold processFrameOptimized
    rw [h]
    simp

/-- Claim C6, witness: an idle-state call whose detection throws still
returns with the in-flight flag cleared. -/
theorem claim_C6_witness :
    (processFrameOptimized (fun _ => .error .decodeError) ⟨[], false⟩ blankFrame).1.isProcessing
      = false :=
  (claim_C6_theorem (fun _ => .error .decodeError) ⟨[], false⟩ blankFrame).1 rfl

/-- Claim C7, counterexample: with `maxCodes = 3`, the third distinct code
`C` arriving 10ms after the last batched update is recorded in the unique
set (the target is reached) but — the auto-stop check living inside the
16ms-throttled update branch — no results are published and the scanner
keeps scanning. -/
theorem claim_C7_counterexample :
    (UltraFastMultiScanner.addDetectedCode 3 throttledState "C" (locAt 5 5) 110).1.uniqueCodesSet.length = 3 ∧
    (UltraFastMultiScanner.addDetectedCode 3 throttledState "C" (locAt 5 5) 110).2 = none ∧
    (UltraFastMultiScanner.addDetectedCode 3 throttledState "C" (locAt 5 5) 110).1.isScanning = true :=
  of_decide_eq_true (by with_unfolding_all rfl)

/-- Claim C7, amended: when a session-unique code whose addition reaches
the target count is processed more than 16ms after the last batched
update, the scanner publishes the batched results and stops scanning (no
further passes until a new session); within the 16ms window the check is
skipped. -/
theorem claim_C7_theorem (maxCodes : ℕ) (st : UltraFastMultiScanner.UltraState)
    (text : String) (loc : QRLocation) (now : ℚ)
    (hnew : text ∉ st.uniqueCodesSet)
    (hthrottle : 16 < now - st.lastUpdateTime)
    (htarget : maxCodes ≤ st.uniqueCodesSet.length + 1) :
    (UltraFastMultiScanner.addDetectedCode maxCodes st text loc now).1.isScanning = false ∧
    ∃ payload,
      (UltraFastMultiScanner.addDetectedCode maxCodes st text loc now).2 = some payload := by
  unfold UltraFastMultiScanner.addDetectedCode
  rw [if_neg hnew]
  simp only [setAdd, if_neg hnew]
  rw [if_pos (by simpa using hthrottle)]
  rw [if_pos (by simpa using htarget)]
  exact ⟨rfl, _, rfl⟩

/-- Claim C7, witness: the third distinct code arriving 20ms after the
last batched update does stop the scanner and publish. -/
theorem claim_C7_witness :
    (UltraFastMultiScanner.addDetectedCode 3 throttledState "C" (locAt 5 5) 120).1.isScanning = false ∧
    ∃ payload,
      (UltraFastMultiScanner.addDetectedCode 3 throttledState "C" (locAt 5 5) 120).2 = some payload :=
  claim_C7_theorem 3 throttledState "C" (locAt 5 5) 120
    (of_decide_eq_true (by with_unfolding_all rfl))
    (of_decide_eq_true (by with_unfolding_all rfl))
    (of_decide_eq_true (by with_unfolding_all rfl))

/-- Claim C8: with the optional `onSingleResult` callback not provided, a
pass whose full-frame strategy finds the single new text `ALPHA` produces
one result, invokes neither callback (delivery is `nothing`), yet still
adds `ALPHA` to the session dedup set — and a later frame decoding `ALPHA`
again therefore produces no results at all: the text is never reported to
the caller in any pass of the session. -/
theorem claim_C8_theorem :
    (TrueMultiCodeScanner.detectMultipleCodes false [] lonelyFrame).1.length = 1 ∧
    (TrueMultiCodeScanner.detectMultipleCodes false [] lonelyFrame).2.1 =
      TrueMultiCodeScanner.Delivery.nothing ∧
    "ALPHA" ∈ (TrueMultiCodeScanner.detectMultipleCodes false [] lonelyFrame).2.2 ∧
    (TrueMultiCodeScanner.detectMultipleCodes false
      (TrueMultiCodeScanner.detectMultipleCodes false [] lonelyFrame).2.2 lonelyFrame).1 = [] :=
  of_decide_eq_true (by with_unfolding_all rfl)

end Scanner
